import Mathlib

/-!
Verification of the butex (futex-like wait/wake) core of the bthread M:N
threading runtime, shallowly embedded from `src/bthread/butex.cpp`.

The embedding models:
* the post-resumption result dispatch of `butex_wait` (lines 682-695);
* the sequential entry phase of `butex_wait` (lines 620-661) and
  `butex_wait_from_pthread` (lines 553-617);
* the waiter-queue surgery performed under `waiter_lock` by
  `wait_for_butex`, `butex_wake`, `butex_wake_all`, `butex_wake_except`,
  `butex_requeue` and `erase_from_butex`, as operations on an explicit
  queue state indexed by finitely many waiters and butexes;
* the destroy/destruct lifecycle as action traces (observations of
  `unlock_nref`, warning, fence, free);
* the two-thread store-wake vs load-wait race as a step relation on a
  finite interleaving state.
-/

namespace bthread

/-- Error codes (from errno.h / bthread/errno.h, not under src/; the exact
numeric values are irrelevant to every theorem below, only their
distinctness matters). -/
def EWOULDBLOCK : Int := 11

/-- See `EWOULDBLOCK`. -/
def ETIMEDOUT : Int := 110

/-- See `EWOULDBLOCK`. `ESTOP` is bthread-specific. -/
def ESTOP : Int := -20

/-- butex.cpp line 59: if a thread would suspend for less than so many
microseconds, return ETIMEDOUT directly. -/
def LEAST_SLEEP_US : Int := 1

/-- butex.cpp lines 61-66. -/
inductive WaiterState
  | WAITER_STATE_NONE
  | WAITER_STATE_TIMED
  | WAITER_STATE_CANCELLED
  | WAITER_STATE_TIMEDOUT
deriving DecidableEq, Repr

/-- Post-resumption dispatch of `butex_wait`, butex.cpp lines 682-695:
the returned `(rc, errno)` pair computed from the task's `stop` flag and
the waiter's final `waiter_state` (errno is `none` when the code leaves it
untouched and returns 0). -/
def butex_wait_epilogue (stop : Bool) (waiter_state : WaiterState) : Int × Option Int :=
  if stop then (-1, some ESTOP)
  else if waiter_state = .WAITER_STATE_TIMEDOUT then (-1, some ETIMEDOUT)
  else if waiter_state = .WAITER_STATE_CANCELLED then (-1, some EWOULDBLOCK)
  else (0, none)

/-- Outcome of the sequential entry phase of `butex_wait_from_pthread`
(butex.cpp lines 553-602).  `timedout` is the early return at lines
562-564, `estop` the early return at lines 580-582, `wouldblock` the
value-mismatch return at lines 598-601, `enqueued` means the waiter was
appended to the butex queue and the thread proceeds to `wait_pthread`.
The `published` flag records whether the waiter pointer was stored into
`task->current_waiter` (line 585) before that point. -/
inductive PWResult
  | timedout
  | estop
  | wouldblock (published : Bool)
  | enqueued (published : Bool)
deriving DecidableEq, Repr

/-- Whether the entry phase published a waiter into `task->current_waiter`
before returning / parking. -/
def PWResult.publishes : PWResult → Bool
  | .timedout => false
  | .estop => false
  | .wouldblock p => p
  | .enqueued p => p

/-- Whether the entry phase appended a waiter to the butex's queue. -/
def PWResult.enqueues : PWResult → Bool
  | .enqueued _ => true
  | _ => false

/-- Sequential entry phase of `butex_wait_from_pthread`, butex.cpp lines
553-602.  `value` is the butex's value word, `abstime` the absolute
deadline in microseconds (`none` when the timespec pointer is NULL),
`now` the value `gettimeofday_us()` returns at line 561, `has_task`
whether `g` is non-NULL (so `g->current_task()` exists), and
`interruptible` / `stop` the task's flags. -/
def butex_wait_from_pthread (value expected : Int) (abstime : Option Int)
    (now : Int) (has_task interruptible stop : Bool) : PWResult :=
  match abstime with
  | some deadline =>
    if deadline - now ≤ LEAST_SLEEP_US then .timedout
    else
      if has_task ∧ interruptible ∧ stop then .estop
      else
        if value = expected then .enqueued (has_task && interruptible)
        else .wouldblock (has_task && interruptible)
  | none =>
    if has_task ∧ interruptible ∧ stop then .estop
    else
      if value = expected then .enqueued (has_task && interruptible)
      else .wouldblock (has_task && interruptible)

/-- Outcome of the sequential entry phase of `butex_wait` (butex.cpp lines
620-668): `wouldblock` is the fast-path mismatch return at lines 622-627,
`pthread r` the delegation to `butex_wait_from_pthread` at lines 630-631,
`timedout` the already-expired return at lines 650-654, `estop_timer` the
TimerThread-stopped return at lines 657-660, and `suspend` means the
bthread publishes its waiter, installs `wait_for_butex` as the remained
action and yields (lines 662-668). -/
inductive BWEntry
  | wouldblock
  | pthread (r : PWResult)
  | timedout
  | estop_timer
  | suspend
deriving DecidableEq, Repr

/-- Whether the entry phase of `butex_wait` can append a waiter to the
butex's queue (directly or, for `suspend`, later via `wait_for_butex`). -/
def BWEntry.enqueues : BWEntry → Bool
  | .pthread r => r.enqueues
  | .suspend => true
  | _ => false

/-- Whether the call returned -1 with errno = ETIMEDOUT. -/
def BWEntry.returnsETIMEDOUT : BWEntry → Bool
  | .timedout => true
  | .pthread .timedout => true
  | _ => false

/-- Sequential entry phase of `butex_wait`, butex.cpp lines 620-668.
`pthread_path` is true when `tls_task_group` is NULL or the current task
runs in pthread mode (line 630); `timer_ok` is whether
`TimerThread::schedule` returned a non-zero sleep id at line 655. -/
def butex_wait (value expected : Int) (pthread_path : Bool) (abstime : Option Int)
    (now : Int) (timer_ok : Bool) (has_task interruptible stop : Bool) : BWEntry :=
  if value ≠ expected then .wouldblock
  else if pthread_path then
    .pthread (butex_wait_from_pthread value expected abstime now has_task interruptible stop)
  else
    match abstime with
    | none => .suspend
    | some deadline =>
      if deadline ≤ now + LEAST_SLEEP_US then .timedout
      else if timer_ok then .suspend else .estop_timer

/-- Observable actions of the butex lifecycle functions: a load of
`unlock_nref` returning `nref`, the WARNING log, the acquire fence, and
the release of the backing storage (`delete` / `~Butex()`). -/
inductive DAction
  | observe (nref : Int)
  | warn
  | fence
  | free
deriving DecidableEq, Repr

/-- `tr` releases storage only after having observed `unlock_nref = 0`:
every `free` in `tr` is preceded by an `observe 0` (the `seenZero`
accumulator records whether one was seen so far). -/
def freeOnlyAfterZero : List DAction → Bool → Bool
  | [], _ => true
  | .free :: rest, seenZero => seenZero && freeOnlyAfterZero rest seenZero
  | .observe n :: rest, seenZero => freeOnlyAfterZero rest (seenZero || (n == 0))
  | .warn :: rest, seenZero => freeOnlyAfterZero rest seenZero
  | .fence :: rest, seenZero => freeOnlyAfterZero rest seenZero

/-- The `while (unlock_nref != 0)` spin of `butex_destruct`, butex.cpp
lines 208-215, driven by `obs`, the successive values the relaxed load at
line 209 returns; `first_time` is the flag guarding the WARNING at lines
210-213.  Returns `none` when `obs` is exhausted with the loop still
spinning (the load never returned 0). -/
def destruct_spin : List Int → Bool → Option (List DAction)
  | [], _ => none
  | n :: rest, first_time =>
    if n = 0 then some [DAction.observe n]
    else
      match destruct_spin rest false with
      | none => none
      | some tr => some (DAction.observe n :: (if first_time then DAction.warn :: tr else tr))

/-- `butex_destruct`, butex.cpp lines 205-219: spin until `unlock_nref`
is observed 0, acquire fence, then `b->~Butex()` (the `free` action). -/
def butex_destruct (obs : List Int) : Option (List DAction) :=
  match destruct_spin obs true with
  | none => none
  | some tr => some (tr ++ [DAction.fence, DAction.free])

/-- `butex_destroy`, butex.cpp lines 192-198: `delete b` without reading
`unlock_nref` at all.  `nref` is the current value of `unlock_nref`,
which the function ignores. -/
def butex_destroy (_nref : Int) : List DAction :=
  [DAction.free]

/-- The Butex object, butex.cpp lines 104-112: the 32-bit value word, the
wake-side refcount, and the waiter list. -/
structure Butex where
  value : Int
  unlock_nref : Int
  waiters : List Nat
deriving DecidableEq, Repr

/-- `offsetof(Butex, value) = 0`, asserted at butex.cpp line 118: the
handle `&b->value` returned by `butex_create` is the butex's own address
plus this offset. -/
def offsetof_value : Nat := 0

/-- Modelled from the spec: the default construction of the
`base::atomic<int>` value word.  The `Butex()` constructor (butex.cpp
line 105) initializes only `unlock_nref`; `base::atomic`'s default
constructor lives in base/atomicops.h which is not under src/.  The
spec's "returns a fresh zero-valued butex handle" fixes it to 0. -/
def atomic_int_default : Int := 0

/-- The `Butex()` constructor, butex.cpp line 105: `unlock_nref(0)`, an
empty waiter list, and a default-constructed value word. -/
def Butex.init : Butex :=
  { value := atomic_int_default, unlock_nref := 0, waiters := [] }

/-- `butex_create`, butex.cpp lines 184-190: allocate a CacheAlignedButex
(`alloc_ok` models whether `new (std::nothrow)` succeeds; failure returns
NULL) and return `&b->value`, modelled as the fresh object paired with
the byte offset within it that the returned handle points to. -/
def butex_create (alloc_ok : Bool) : Option (Butex × Nat) :=
  if alloc_ok then some (Butex.init, offsetof_value) else none

/-- Pointwise update of a map, used to model writes to one butex's waiter
list or one waiter's fields. -/
def upd {κ α : Type} [DecidableEq κ] (f : κ → α) (k : κ) (v : α) : κ → α :=
  fun x => if x = k then v else f x

/-- The quiescent state of the waiter machinery, restricted to `W`
waiters and `B` butexes: each butex's value word and waiter queue (head
first, appended at the tail), each waiter's `container` tag,
`waiter_state` and `tid` (0 for k-thread waiters). -/
structure BtxState (W B : Nat) where
  values : Fin B → Int
  lists : Fin B → List (Fin W)
  container : Fin W → Option (Fin B)
  waiter_state : Fin W → WaiterState
  tids : Fin W → Nat

/-- The resumption mechanism a woken waiter is handed to: the kernel
futex signal of `wakeup_pthread` (butex.cpp lines 120-130) for a k-thread
waiter, or the scheduler handoff (`TaskGroup::exchange` /
`ready_to_run`) for a u-task waiter. -/
inductive Dispatch (W : Nat)
  | futexSignal (w : Fin W)
  | schedHandoff (w : Fin W)
deriving DecidableEq, Repr

/-- The remained action `wait_for_butex`, butex.cpp lines 504-551,
restricted to its effect under `waiter_lock`: re-check the value word
against the waiter's `expected_value` snapshot, the waiter state against
TIMEDOUT, and the stop/interruptible flags of the task; on success append
to the queue and tag `container`; otherwise leave the queue untouched and
mark the waiter CANCELLED unless already TIMEDOUT (the self-wake at line
541 is outside this state).  Returns the state plus whether the waiter
was enqueued. -/
def wait_for_butex (S : BtxState W B) (b : Fin B) (w : Fin W)
    (expected : Int) (stop interruptible : Bool) : BtxState W B × Bool :=
  if S.values b = expected ∧ S.waiter_state w ≠ .WAITER_STATE_TIMEDOUT ∧
      (stop = false ∨ interruptible = false) then
    ({ S with lists := upd S.lists b (S.lists b ++ [w]),
              container := upd S.container w (some b) }, true)
  else
    ({ S with waiter_state :=
        if S.waiter_state w = .WAITER_STATE_TIMEDOUT then S.waiter_state
        else upd S.waiter_state w .WAITER_STATE_CANCELLED }, false)

/-- `butex_wake`, butex.cpp lines 226-251: pop the queue head (if any),
null its `container`, and dispatch it to its resumption mechanism by
`tid`.  Returns the wake count, the new state and the dispatch. -/
def butex_wake (S : BtxState W B) (b : Fin B) :
    Int × BtxState W B × Option (Dispatch W) :=
  match S.lists b with
  | [] => (0, S, none)
  | front :: rest =>
    (1,
     { S with lists := upd S.lists b rest,
              container := upd S.container front none },
     some (if S.tids front = 0 then .futexSignal front else .schedHandoff front))

/-- `butex_wake_all`, butex.cpp lines 295-354: drain the whole queue
under the lock, nulling every drained waiter's `container`; every waiter
is then woken exactly once (pthreads by futex, bthreads batched through
the scheduler), so the count is the queue length. -/
def butex_wake_all (S : BtxState W B) (b : Fin B) : Int × BtxState W B :=
  ((S.lists b).length,
   { S with lists := upd S.lists b [],
            container := fun w => if w ∈ S.lists b then none else S.container w })

/-- `butex_requeue`, butex.cpp lines 426-464: under the pointer-ordered
double lock, pop and null the head of `src`, then move every remaining
`src` waiter to the tail of `dst`, retagging its `container`; the head is
dispatched as in `butex_wake`.  (The source double-locks two distinct
butexes; `src = dst` would self-deadlock, so theorems assume
`src ≠ dst`.) -/
def butex_requeue (S : BtxState W B) (src dst : Fin B) :
    Int × BtxState W B × Option (Dispatch W) :=
  match S.lists src with
  | [] => (0, S, none)
  | front :: rest =>
    (1,
     { S with
        lists := upd (upd S.lists src []) dst (S.lists dst ++ rest),
        container := fun w =>
          if w ∈ rest then some dst
          else if w = front then none
          else S.container w },
     some (if S.tids front = 0 then .futexSignal front else .schedHandoff front))

/-- `erase_from_butex`, butex.cpp lines 471-502: a no-op returning false
when the waiter's `container` is null; otherwise remove the waiter from
its butex's list, null its `container`, set a u-task waiter's state to
TIMEDOUT, and optionally dispatch it.  errno is saved at entry (line 477)
and restored at exit (line 500), so the returned errno equals the
caller's. -/
def erase_from_butex (S : BtxState W B) (w : Fin W) (wakeup : Bool)
    (errno : Int) : Bool × BtxState W B × Int × Option (Dispatch W) :=
  let saved_errno := errno
  match S.container w with
  | none => (false, S, saved_errno, none)
  | some b =>
    (true,
     { S with
        lists := upd S.lists b ((S.lists b).erase w),
        container := upd S.container w none,
        waiter_state :=
          if S.tids w ≠ 0 then upd S.waiter_state w .WAITER_STATE_TIMEDOUT
          else S.waiter_state },
     saved_errno,
     if wakeup then
       some (if S.tids w ≠ 0 then .schedHandoff w else .futexSignal w)
     else none)

/-- Classification of a waiter during the `butex_wake_except` scan
(butex.cpp lines 372-387): a u-task waiter whose tid matches the excluded
tid (`bw->tid` nonzero and equal to `excluded_bthread`). -/
def isEx (S : BtxState W B) (excluded : Nat) (w : Fin W) : Bool :=
  decide (S.tids w ≠ 0) && decide (S.tids w = excluded)

/-- A u-task waiter that is woken by `butex_wake_except` (tid nonzero and
different from the excluded tid). -/
def isB (S : BtxState W B) (excluded : Nat) (w : Fin W) : Bool :=
  decide (S.tids w ≠ 0) && decide (S.tids w ≠ excluded)

/-- A k-thread waiter (tid 0), always woken by `butex_wake_except`. -/
def isP (S : BtxState W B) (w : Fin W) : Bool :=
  decide (S.tids w = 0)

/-- The last element of the list satisfying `p`, or `exw` when none does:
the value the repeatedly-overwritten `excluded_waiter` local of
`butex_wake_except` holds after the scan. -/
def lastMatch {α : Type} (p : α → Bool) : Option α → List α → Option α
  | exw, [] => exw
  | exw, a :: l => if p a then lastMatch p (some a) l else lastMatch p exw l

/-- The drain loop of `butex_wake_except`, butex.cpp lines 372-387:
processes the queue head first, moving u-task waiters to
`bthread_waiters` (container nulled), k-thread waiters to
`pthread_waiters` (container nulled), and remembering a matching waiter
in `excluded_waiter` (container left intact). -/
def wake_except_scan (S : BtxState W B) (excluded : Nat) :
    List (Fin W) → List (Fin W) → Option (Fin W) → List (Fin W) →
    List (Fin W) × List (Fin W) × Option (Fin W)
  | accB, accP, exw, [] => (accB, accP, exw)
  | accB, accP, exw, w :: rest =>
    if S.tids w ≠ 0 then
      if S.tids w ≠ excluded then wake_except_scan S excluded (accB ++ [w]) accP exw rest
      else wake_except_scan S excluded accB accP (some w) rest
    else wake_except_scan S excluded accB (accP ++ [w]) exw rest

/-- `butex_wake_except`, butex.cpp lines 364-424: drain the queue keeping
the excluded waiter aside, re-append the excluded waiter (if found) with
its `container` still tagging the butex, null every other drained
waiter's `container`, and wake them all (pthreads first, then every
bthread). -/
def butex_wake_except (S : BtxState W B) (b : Fin B) (excluded : Nat) :
    Int × BtxState W B :=
  (((wake_except_scan S excluded [] [] none (S.lists b)).2.1.length +
    (wake_except_scan S excluded [] [] none (S.lists b)).1.length : Int),
   { S with
      lists := upd S.lists b
        (match (wake_except_scan S excluded [] [] none (S.lists b)).2.2 with
         | some e => [e]
         | none => []),
      container := fun w =>
        if w ∈ (wake_except_scan S excluded [] [] none (S.lists b)).1 ++
               (wake_except_scan S excluded [] [] none (S.lists b)).2.1
        then none
        else S.container w })

/-- The container invariant (spec §8.3) at a quiescent point: a waiter is
in a butex's list iff its `container` tags that butex (hence its
`container` is null iff it is in no list), and every queue holds a waiter
at most once. -/
def Inv (S : BtxState W B) : Prop :=
  (∀ (w : Fin W) (b : Fin B), w ∈ S.lists b ↔ S.container w = some b) ∧
  (∀ b : Fin B, (S.lists b).Nodup)

instance (W B : Nat) (S : BtxState W B) : Decidable (Inv S) := by
  unfold Inv
  infer_instance

/-- Program counter of the waiting thread in the store-wake vs load-wait
race: the fast value check of `butex_wait` (lines 622-627), the
lock-protected re-check-and-enqueue (the remained action
`wait_for_butex`, lines 522-541, or equivalently the locked section of
the k-thread path, lines 588-602), parked, and returned. -/
inductive WaiterPC
  | checkValue
  | recheckEnqueue
  | parked
  | done
deriving DecidableEq, Repr

/-- Program counter of the waking thread: about to store the new value,
about to run `butex_wake`'s locked dequeue (lines 229-237), finished. -/
inductive WakerPC
  | store
  | wake
  | finished
deriving DecidableEq, Repr

/-- How the wait call returned: value mismatch (EWOULDBLOCK, from the
fast check or the cancelled re-check) or woken by the wake. -/
inductive WaitOutcome
  | wouldblock
  | woken
deriving DecidableEq, Repr

/-- Joint state of one waiter thread and one waker thread racing on one
butex: the value word, whether the waiter is in the queue, whether the
wake dequeued it, both program counters and the waiter's result. -/
structure RaceState where
  value : Int
  queued : Bool
  woken : Bool
  waiterPC : WaiterPC
  wakerPC : WakerPC
  outcome : Option WaitOutcome
deriving DecidableEq, Repr

/-- Initial race state: value still `vexp`, queue empty, both threads at
their first step. -/
def raceInit (vexp : Int) : RaceState :=
  { value := vexp, queued := false, woken := false,
    waiterPC := .checkValue, wakerPC := .store, outcome := none }

/-- Interleaving semantics of the race between `value = vnew; wake(h)`
and `load value; wait(h, vexp)`.  Each constructor is one atomic step of
butex.cpp: the relaxed fast check (line 622), the re-check-and-enqueue or
cancel under `waiter_lock` (lines 522-541 / 588-602), resumption of a
woken waiter, the waker's store, and `butex_wake`'s locked dequeue (lines
229-237), which either finds the queued waiter or finds the queue
empty. -/
inductive RaceStep (vexp vnew : Int) : RaceState → RaceState → Prop
  | waiter_check_mismatch (S : RaceState) :
      S.waiterPC = .checkValue → S.value ≠ vexp →
      RaceStep vexp vnew S { S with waiterPC := .done, outcome := some .wouldblock }
  | waiter_check_match (S : RaceState) :
      S.waiterPC = .checkValue → S.value = vexp →
      RaceStep vexp vnew S { S with waiterPC := .recheckEnqueue }
  | waiter_enqueue (S : RaceState) :
      S.waiterPC = .recheckEnqueue → S.value = vexp →
      RaceStep vexp vnew S { S with waiterPC := .parked, queued := true }
  | waiter_cancel (S : RaceState) :
      S.waiterPC = .recheckEnqueue → S.value ≠ vexp →
      RaceStep vexp vnew S { S with waiterPC := .done, outcome := some .wouldblock }
  | waiter_resume (S : RaceState) :
      S.waiterPC = .parked → S.woken = true →
      RaceStep vexp vnew S { S with waiterPC := .done, outcome := some .woken }
  | waker_store (S : RaceState) :
      S.wakerPC = .store →
      RaceStep vexp vnew S { S with value := vnew, wakerPC := .wake }
  | waker_wake_found (S : RaceState) :
      S.wakerPC = .wake → S.queued = true →
      RaceStep vexp vnew S { S with queued := false, woken := true, wakerPC := .finished }
  | waker_wake_empty (S : RaceState) :
      S.wakerPC = .wake → S.queued = false →
      RaceStep vexp vnew S { S with wakerPC := .finished }

/-- States reachable from the initial race state by any interleaving. -/
def RaceReachable (vexp vnew : Int) (S : RaceState) : Prop :=
  Relation.ReflTransGen (RaceStep vexp vnew) (raceInit vexp) S

/-- Inductive invariant of the race: the value word tracks the waker's
progress, a parked waiter is queued or already woken, a finished waker
leaves no one queued, and a returned waiter has an outcome. -/
def RaceInv (vexp vnew : Int) (S : RaceState) : Prop :=
  (S.wakerPC = .store → S.value = vexp) ∧
  (S.wakerPC ≠ .store → S.value = vnew) ∧
  (S.waiterPC = .parked → S.queued = true ∨ S.woken = true) ∧
  (S.wakerPC = .finished → S.queued = false) ∧
  (S.waiterPC = .done →
    S.outcome = some .wouldblock ∨ S.outcome = some .woken)

/-- A concrete 3-waiter, 2-butex state used by witnesses: butex 0 queues
waiters 0 and 1 (u-tasks with tids 1 and 2), butex 1 is empty, waiter 2
(a k-thread waiter, tid 0) is unqueued. -/
def bwakeW : BtxState 3 2 :=
  { values := fun _ => 0,
    lists := fun b => if b = 0 then [0, 1] else [],
    container := fun w => if w = 2 then none else some 0,
    waiter_state := fun _ => .WAITER_STATE_NONE,
    tids := fun w => if w = 2 then 0 else w.val + 1 }

/-- A concrete state for the requeue witness: butex 0 queues all three
waiters (all u-tasks), butex 1 is empty. -/
def brqW : BtxState 3 2 :=
  { values := fun _ => 0,
    lists := fun b => if b = 0 then [0, 1, 2] else [],
    container := fun _ => some 0,
    waiter_state := fun _ => .WAITER_STATE_NONE,
    tids := fun w => w.val + 1 }

example : butex_wait 5 7 false (some 0) 0 true true true false = .wouldblock := by decide

example : butex_wait 0 0 false (some 0) 0 true true true false = .timedout := by decide

example : butex_wait 0 0 true (some 0) 0 true true true true = .pthread .timedout := by decide

example : butex_wait 0 0 true none 0 true true true true = .pthread .estop := by decide

example : butex_wait_epilogue true .WAITER_STATE_TIMEDOUT = (-1, some ESTOP) := by decide

example : butex_destruct [3, 2, 0] =
    some [.observe 3, .warn, .observe 2, .observe 0, .fence, .free] := by decide

example : butex_destruct [1, 1] = none := by decide

example : butex_destroy 5 = [.free] := by decide

/-- Every action a successful `destruct_spin` emits is an observation or
the warning (never a fence or the free). -/
theorem destruct_spin_actions :
    ∀ (obs : List Int) (ft : Bool) (tr : List DAction), destruct_spin obs ft = some tr →
      ∀ a ∈ tr, a = DAction.warn ∨ ∃ n, a = DAction.observe n := by
  intro obs
  induction obs with
  | nil => intro ft tr h; simp [destruct_spin] at h
  | cons n rest ih =>
    intro ft tr h a ha
    by_cases hn : n = 0
    · simp [destruct_spin, hn] at h
      subst h
      simp at ha
      exact Or.inr ⟨n, by simp [ha, hn]⟩
    · simp [destruct_spin, hn] at h
      rcases htr : destruct_spin rest false with _ | tr₂
      · rw [htr] at h; simp at h
      · rw [htr] at h
        simp at h
        subst h
        simp at ha
        rcases ha with ha | ha
        · exact Or.inr ⟨n, ha⟩
        · rcases ft with _ | _
          · simp at ha
            exact ih false tr₂ htr a ha
          · simp at ha
            rcases ha with ha | ha
            · exact Or.inl ha
            · exact ih false tr₂ htr a ha

/-- Processing a successful spin trace from a not-yet-seen-zero start
behaves, for any continuation, like having seen zero: the spin exits only
after an `observe 0`. -/
theorem destruct_spin_seen_zero :
    ∀ (obs : List Int) (ft : Bool) (tr : List DAction), destruct_spin obs ft = some tr →
      ∀ suffix, freeOnlyAfterZero (tr ++ suffix) false = freeOnlyAfterZero suffix true := by
  intro obs
  induction obs with
  | nil => intro ft tr h; simp [destruct_spin] at h
  | cons n rest ih =>
    intro ft tr h suffix
    by_cases hn : n = 0
    · simp [destruct_spin, hn] at h
      subst h
      simp [hn, freeOnlyAfterZero]
    · simp [destruct_spin, hn] at h
      rcases htr : destruct_spin rest false with _ | tr₂
      · rw [htr] at h; simp at h
      · rw [htr] at h
        simp at h
        subst h
        have hbeq : (n == (0 : Int)) = false := by
          simp [hn]
        rcases ft with _ | _
        · simp [freeOnlyAfterZero, hbeq]
          exact ih false tr₂ htr suffix
        · simp [freeOnlyAfterZero, hbeq]
          exact ih false tr₂ htr suffix

/-- The warning appears in a spin trace iff the spin was entered with
`first_time` and the first observation was nonzero. -/
theorem destruct_spin_warn :
    ∀ (obs : List Int) (ft : Bool) (tr : List DAction), destruct_spin obs ft = some tr →
      (DAction.warn ∈ tr ↔ (ft = true ∧ ∃ n l, obs = n :: l ∧ n ≠ 0)) := by
  intro obs
  induction obs with
  | nil => intro ft tr h; simp [destruct_spin] at h
  | cons n rest ih =>
    intro ft tr h
    by_cases hn : n = 0
    · simp [destruct_spin, hn] at h
      subst h
      constructor
      · intro hmem
        simp at hmem
      · rintro ⟨hft, m, l, hml, hm⟩
        rw [List.cons.injEq] at hml
        exact absurd (hml.1 ▸ hn) hm
    · simp [destruct_spin, hn] at h
      rcases htr : destruct_spin rest false with _ | tr₂
      · rw [htr] at h; simp at h
      · rw [htr] at h
        simp at h
        subst h
        have hwarn₂ : DAction.warn ∉ tr₂ := by
          intro hmem
          have hx := (ih false tr₂ htr).mp hmem
          exact Bool.false_ne_true hx.1
        rcases ft with _ | _
        · constructor
          · intro hmem
            simp at hmem
            exact absurd hmem hwarn₂
          · rintro ⟨hft, -⟩
            exact (Bool.false_ne_true hft).elim
        · constructor
          · intro _
            exact ⟨rfl, n, rest, rfl, hn⟩
          · intro _
            simp

/-- C7 (amended): `butex_destruct` tears the butex down only after
`unlock_nref` has been observed 0 — when the spin terminates, every
`free` in the emitted trace is preceded by an observation of 0, the trace
ends with the acquire fence immediately followed by the storage release
(everything before them being loads of `unlock_nref` or the warning), and
the warning is emitted iff the very first load saw a nonzero count (the
destruction raced with a wake).  `butex_destroy`, by contrast, releases
the storage without inspecting `unlock_nref` (see the counterexample). -/
theorem butex_destruct_spec (obs : List Int) (tr : List DAction)
    (h : butex_destruct obs = some tr) :
    freeOnlyAfterZero tr false = true ∧
    (∃ tr₀, tr = tr₀ ++ [DAction.fence, DAction.free] ∧
      ∀ a ∈ tr₀, a = DAction.warn ∨ ∃ n, a = DAction.observe n) ∧
    (∀ n l, obs = n :: l → (DAction.warn ∈ tr ↔ n ≠ 0)) := by
  unfold butex_destruct at h
  rcases htr : destruct_spin obs true with _ | tr₀
  · rw [htr] at h; simp at h
  · rw [htr] at h
    simp at h
    subst h
    refine ⟨?_, ⟨tr₀, rfl, destruct_spin_actions obs true tr₀ htr⟩, ?_⟩
    · rw [destruct_spin_seen_zero obs true tr₀ htr]
      rfl
    · intro n l hobs
      have hw := destruct_spin_warn obs true tr₀ htr
      constructor
      · intro hmem
        have hmem' : DAction.warn ∈ tr₀ := by
          rcases List.mem_append.mp hmem with h₁ | h₁
          · exact h₁
          · exact absurd h₁ (by decide)
        rcases hw.mp hmem' with ⟨-, m, l', hml', hm⟩
        rw [hobs, List.cons.injEq] at hml'
        rw [hml'.1]
        exact hm
      · intro hne
        exact List.mem_append.mpr (Or.inl (hw.mpr ⟨rfl, n, l, hobs, hne⟩))

/-- Witness for C7's theorem at the concrete observation sequence
`[2, 0]`: the destructor spun once (warning emitted), then observed 0,
fenced and freed. -/
theorem butex_destruct_spec_witness :
    freeOnlyAfterZero [DAction.observe 2, DAction.warn, DAction.observe 0,
      DAction.fence, DAction.free] false = true ∧
    DAction.warn ∈ [DAction.observe 2, DAction.warn, DAction.observe 0,
      DAction.fence, DAction.free] := by
  have h := butex_destruct_spec [2, 0]
    [DAction.observe 2, DAction.warn, DAction.observe 0, DAction.fence, DAction.free]
    (by decide)
  exact ⟨h.1, (h.2.2 2 [0] rfl).mpr (by decide)⟩

/-- C7 counterexample: the claim covers `butex_destroy` as well, but
`butex_destroy` releases the backing storage with `unlock_nref` still 5,
never observing it equal to 0 and issuing no fence. -/
theorem butex_destroy_counterexample :
    freeOnlyAfterZero (butex_destroy 5) false = false ∧
    DAction.fence ∉ butex_destroy 5 ∧ (5 : Int) ≠ 0 := by decide

/-- C8: every successful `butex_create` returns the handle of a fresh
butex — the handle points at the value word (byte offset 0 within the
object, per the layout assert), the value word is 0, the wake refcount is
0 and the waiter list is empty. -/
theorem butex_create_spec (alloc_ok : Bool) (b : Butex) (off : Nat)
    (h : butex_create alloc_ok = some (b, off)) :
    off = offsetof_value ∧ offsetof_value = 0 ∧
    b.value = 0 ∧ b.unlock_nref = 0 ∧ b.waiters = [] := by
  unfold butex_create at h
  rcases alloc_ok with _ | _
  · simp at h
  · simp at h
    rw [← h.1, ← h.2]
    exact ⟨rfl, rfl, rfl, rfl, rfl⟩

/-- Witness for C8's theorem: the successful allocation. -/
theorem butex_create_spec_witness :
    (Butex.init.value = 0 ∧ Butex.init.unlock_nref = 0) ∧ offsetof_value = 0 := by
  have h := butex_create_spec true Butex.init offsetof_value (by decide)
  exact ⟨⟨h.2.2.1, h.2.2.2.1⟩, h.2.1⟩

/-- C2: the result of a u-task wait that resumes after parking is decided
in priority order (butex.cpp lines 682-695): `stop` → ESTOP regardless of
the waiter state (including TIMEDOUT); else TIMEDOUT → ETIMEDOUT; else
CANCELLED → EWOULDBLOCK; else 0 with errno untouched. -/
theorem butex_wait_result_priority :
    (∀ st, butex_wait_epilogue true st = (-1, some ESTOP)) ∧
    (butex_wait_epilogue false .WAITER_STATE_TIMEDOUT = (-1, some ETIMEDOUT)) ∧
    (butex_wait_epilogue false .WAITER_STATE_CANCELLED = (-1, some EWOULDBLOCK)) ∧
    (∀ st, st ≠ .WAITER_STATE_TIMEDOUT → st ≠ .WAITER_STATE_CANCELLED →
      butex_wait_epilogue false st = (0, none)) := by
  refine ⟨fun st => rfl, rfl, rfl, fun st h₁ h₂ => ?_⟩
  cases st
  · rfl
  · rfl
  · exact absurd rfl h₂
  · exact absurd rfl h₁

/-- Witness for C2's theorem: the normal-wake case and the
stop-beats-timeout case evaluated concretely. -/
theorem butex_wait_result_priority_witness :
    butex_wait_epilogue false .WAITER_STATE_NONE = (0, none) ∧
    butex_wait_epilogue true .WAITER_STATE_TIMEDOUT = (-1, some ESTOP) :=
  ⟨butex_wait_result_priority.2.2.2 .WAITER_STATE_NONE (by decide) (by decide),
   butex_wait_result_priority.1 .WAITER_STATE_TIMEDOUT⟩

/-- C6 (amended): a wait whose initial value check passes and whose
deadline is within `LEAST_SLEEP_US` (1µs) of now returns ETIMEDOUT
without enqueuing a waiter, on both the u-task path (butex.cpp lines
650-654) and the k-thread path (lines 560-564).  (When the initial value
check fails, the call instead returns EWOULDBLOCK — see the
counterexample.) -/
theorem butex_wait_timeout_lower_bound (value d now : Int)
    (timer_ok has_task interruptible stop : Bool)
    (hd : d - now ≤ LEAST_SLEEP_US) :
    butex_wait value value false (some d) now timer_ok has_task interruptible stop
      = .timedout ∧
    butex_wait value value true (some d) now timer_ok has_task interruptible stop
      = .pthread .timedout ∧
    BWEntry.timedout.enqueues = false ∧
    (BWEntry.pthread .timedout).enqueues = false := by
  have hd' : d ≤ now + LEAST_SLEEP_US := by omega
  refine ⟨?_, ?_, rfl, rfl⟩
  · simp [butex_wait, hd']
  · simp [butex_wait, butex_wait_from_pthread, hd]

/-- Witness for C6's theorem at value 0, deadline 10, now 10. -/
theorem butex_wait_timeout_lower_bound_witness :
    butex_wait 0 0 false (some 10) 10 true true true false = .timedout ∧
    butex_wait 0 0 true (some 10) 10 true true true false = .pthread .timedout := by
  have h := butex_wait_timeout_lower_bound 0 10 10 true true true false (by decide)
  exact ⟨h.1, h.2.1⟩

/-- C6 counterexample: a call with an already-expired deadline
(`deadline - now = 0 ≤ 1µs`) but a mismatched value returns EWOULDBLOCK,
not ETIMEDOUT, on both paths — the fast value check at butex.cpp lines
622-627 precedes every deadline check. -/
theorem butex_wait_timeout_counterexample :
    ((0 : Int) - 0 ≤ LEAST_SLEEP_US) ∧
    butex_wait 5 7 false (some 0) 0 true true true false = .wouldblock ∧
    butex_wait 5 7 true (some 0) 0 true true true false = .wouldblock ∧
    (butex_wait 5 7 false (some 0) 0 true true true false).returnsETIMEDOUT = false ∧
    (butex_wait 5 7 true (some 0) 0 true true true false).returnsETIMEDOUT = false := by
  decide

/-- C10 (amended): on the k-thread path taken from inside an
interruptible u-task whose stop flag is already set, and whose deadline
(if any) is not already within `LEAST_SLEEP_US` of now, the call returns
ESTOP at butex.cpp lines 580-582 — before the waiter is published into
`task->current_waiter` (line 585) and before any enqueue (line 591). -/
theorem pthread_stop_before_publish (value expected now d : Int)
    (hd : d - now > LEAST_SLEEP_US) :
    butex_wait_from_pthread value expected none now true true true = .estop ∧
    butex_wait_from_pthread value expected (some d) now true true true = .estop ∧
    PWResult.estop.publishes = false ∧
    PWResult.estop.enqueues = false := by
  have hd' : ¬ (d - now ≤ LEAST_SLEEP_US) := by omega
  refine ⟨?_, ?_, rfl, rfl⟩
  · simp [butex_wait_from_pthread]
  · simp [butex_wait_from_pthread, hd']

/-- Witness for C10's theorem: no deadline, and a deadline 10µs out. -/
theorem pthread_stop_before_publish_witness :
    butex_wait_from_pthread 0 0 none 0 true true true = .estop ∧
    butex_wait_from_pthread 0 0 (some 10) 0 true true true = .estop := by
  have h := pthread_stop_before_publish 0 0 0 10 (by decide)
  exact ⟨h.1, h.2.1⟩

theorem upd_same {κ α : Type} [DecidableEq κ] (f : κ → α) (k : κ) (v : α) :
    upd f k v k = v := by
  simp [upd]

theorem upd_ne {κ α : Type} [DecidableEq κ] (f : κ → α) (k : κ) (v : α)
    (x : κ) (h : x ≠ k) : upd f k v x = f x := by
  simp [upd, h]

/-- C5: `butex_wake` on an empty queue returns 0 and changes nothing;
otherwise it removes exactly the head waiter (all other queues and all
other waiters' containers untouched), nulls the head's `container`,
dispatches it by its kind — futex signal for a k-thread waiter
(`tid = 0`), scheduler handoff for a u-task waiter — and returns 1. -/
theorem butex_wake_spec (W B : Nat) (S : BtxState W B) (b : Fin B) :
    (S.lists b = [] → butex_wake S b = (0, S, none)) ∧
    (∀ front rest, S.lists b = front :: rest →
      (butex_wake S b).1 = 1 ∧
      (butex_wake S b).2.1.lists b = rest ∧
      (∀ b2, b2 ≠ b → (butex_wake S b).2.1.lists b2 = S.lists b2) ∧
      (butex_wake S b).2.1.container front = none ∧
      (∀ w, w ≠ front → (butex_wake S b).2.1.container w = S.container w) ∧
      (butex_wake S b).2.2 = some (if S.tids front = 0 then Dispatch.futexSignal front
                                   else Dispatch.schedHandoff front)) := by
  constructor
  · intro h
    unfold butex_wake
    rw [h]
  · intro front rest h
    have hw : butex_wake S b =
        (1, { S with lists := upd S.lists b rest,
                     container := upd S.container front none },
         some (if S.tids front = 0 then .futexSignal front
               else .schedHandoff front)) := by
      unfold butex_wake
      rw [h]
    rw [hw]
    refine ⟨rfl, upd_same _ _ _, fun b2 h2 => upd_ne _ _ _ _ h2,
            upd_same _ _ _, fun w h2 => upd_ne _ _ _ _ h2, rfl⟩

/-- Witness for C5's theorem: a 3-waiter, 2-butex state; waking butex 0
pops waiter 0 (a u-task, tid 1) and leaves butex 1's queue alone, and
waking the empty butex 1 is a no-op. -/
theorem butex_wake_spec_witness :
    (butex_wake bwakeW 0).1 = 1 ∧ (butex_wake bwakeW 0).2.1.lists 0 = [1] ∧
    butex_wake bwakeW 1 = (0, bwakeW, none) := by
  have h5 := (butex_wake_spec 3 2 bwakeW 0).2 0 [1] (by decide)
  exact ⟨h5.1, h5.2.1, (butex_wake_spec 3 2 bwakeW 1).1 (by decide)⟩

/-- C4: `butex_requeue` on an empty source queue returns 0 leaving both
queues unchanged; otherwise it wakes exactly the head waiter of `src`
(via the single-waiter dispatch), moves every remaining `src` waiter, in
queue order, to the tail of `dst`, retags each moved waiter's `container`
to `dst`, and returns 1. -/
theorem butex_requeue_spec (W B : Nat) (S : BtxState W B) (src dst : Fin B)
    (hne : src ≠ dst) :
    (S.lists src = [] → butex_requeue S src dst = (0, S, none)) ∧
    (∀ front rest, S.lists src = front :: rest →
      (butex_requeue S src dst).1 = 1 ∧
      (butex_requeue S src dst).2.2 =
        some (if S.tids front = 0 then Dispatch.futexSignal front
              else Dispatch.schedHandoff front) ∧
      (butex_requeue S src dst).2.1.lists src = [] ∧
      (butex_requeue S src dst).2.1.lists dst = S.lists dst ++ rest ∧
      (∀ w ∈ rest, (butex_requeue S src dst).2.1.container w = some dst) ∧
      (∀ b2, b2 ≠ src → b2 ≠ dst → (butex_requeue S src dst).2.1.lists b2 = S.lists b2)) := by
  constructor
  · intro h
    unfold butex_requeue
    rw [h]
  · intro front rest h
    have hw : butex_requeue S src dst =
        (1,
         { S with
            lists := upd (upd S.lists src []) dst (S.lists dst ++ rest),
            container := fun w =>
              if w ∈ rest then some dst
              else if w = front then none
              else S.container w },
         some (if S.tids front = 0 then .futexSignal front
               else .schedHandoff front)) := by
      unfold butex_requeue
      rw [h]
    rw [hw]
    refine ⟨rfl, rfl, ?_, ?_, ?_, ?_⟩
    · exact (upd_ne _ _ _ _ hne).trans (upd_same _ _ _)
    · exact upd_same _ _ _
    · intro w hwmem
      simp [hwmem]
    · intro b2 h2 h3
      exact (upd_ne _ _ _ _ h3).trans (upd_ne _ _ _ _ h2)

/-- Witness for C4's theorem: source queue `[0, 1, 2]` on butex 0,
destination butex 1 initially empty; waiters 1 and 2 end on butex 1 with
container 1. -/
theorem butex_requeue_spec_witness :
    (butex_requeue brqW 0 1).1 = 1 ∧
    (butex_requeue brqW 0 1).2.1.lists 0 = [] ∧
    (butex_requeue brqW 0 1).2.1.lists 1 = [1, 2] ∧
    (butex_requeue brqW 0 1).2.1.container 1 = some 1 := by
  have h := (butex_requeue_spec 3 2 brqW 0 1 (by decide)).2 0 [1, 2] (by decide)
  exact ⟨h.1, h.2.2.1, h.2.2.2.1, h.2.2.2.2.1 1 (by decide)⟩

/-- C9: `erase_from_butex` is a no-op returning false when the waiter's
`container` is null; when it erases, it removes the waiter from its
butex's list (other queues untouched), nulls its `container`, sets a
u-task waiter's state to TIMEDOUT, and returns errno exactly as it found
it in either case. -/
theorem erase_from_butex_spec (W B : Nat) (S : BtxState W B) (w : Fin W)
    (wakeup : Bool) (errno : Int) :
    (S.container w = none →
      erase_from_butex S w wakeup errno = (false, S, errno, none)) ∧
    (∀ b, S.container w = some b →
      (erase_from_butex S w wakeup errno).1 = true ∧
      (erase_from_butex S w wakeup errno).2.1.lists b = (S.lists b).erase w ∧
      (∀ b2, b2 ≠ b → (erase_from_butex S w wakeup errno).2.1.lists b2 = S.lists b2) ∧
      (erase_from_butex S w wakeup errno).2.1.container w = none ∧
      (S.tids w ≠ 0 →
        (erase_from_butex S w wakeup errno).2.1.waiter_state w = .WAITER_STATE_TIMEDOUT) ∧
      (erase_from_butex S w wakeup errno).2.2.1 = errno) := by
  constructor
  · intro h
    unfold erase_from_butex
    rw [h]
  · intro b h
    have hw : erase_from_butex S w wakeup errno =
        (true,
         { S with
            lists := upd S.lists b ((S.lists b).erase w),
            container := upd S.container w none,
            waiter_state :=
              if S.tids w ≠ 0 then upd S.waiter_state w .WAITER_STATE_TIMEDOUT
              else S.waiter_state },
         errno,
         if wakeup then
           some (if S.tids w ≠ 0 then .schedHandoff w else .futexSignal w)
         else none) := by
      unfold erase_from_butex
      rw [h]
    rw [hw]
    refine ⟨rfl, upd_same _ _ _, fun b2 h2 => upd_ne _ _ _ _ h2,
            upd_same _ _ _, fun ht => ?_, rfl⟩
    show (if S.tids w ≠ 0 then upd S.waiter_state w .WAITER_STATE_TIMEDOUT
          else S.waiter_state) w = WaiterState.WAITER_STATE_TIMEDOUT
    rw [if_pos ht]
    exact upd_same _ _ _

/-- Witness for C9's theorem: erasing queued waiter 1 (a u-task, tid 2)
from butex 0, and the no-op on unqueued waiter 2; errno 42 survives
both. -/
theorem erase_from_butex_spec_witness :
    erase_from_butex bwakeW 2 true 42 = (false, bwakeW, 42, none) ∧
    (erase_from_butex bwakeW 1 true 42).2.1.lists 0 = [0] ∧
    (erase_from_butex bwakeW 1 true 42).2.1.container 1 = none ∧
    (erase_from_butex bwakeW 1 true 42).2.1.waiter_state 1 = .WAITER_STATE_TIMEDOUT ∧
    (erase_from_butex bwakeW 1 true 42).2.2.1 = 42 := by
  have h0 := (erase_from_butex_spec 3 2 bwakeW 2 true 42).1 (by decide)
  have h1 := (erase_from_butex_spec 3 2 bwakeW 1 true 42).2 0 (by decide)
  refine ⟨h0, ?_, h1.2.2.2.1, h1.2.2.2.2.1 (by decide), h1.2.2.2.2.2⟩
  rw [h1.2.1]
  decide

/-- `wake_except_scan` computes the three classes of the scanned queue:
the woken u-tasks in order, the woken k-threads in order, and the last
matching waiter as `excluded_waiter`. -/
theorem wake_except_scan_spec (S : BtxState W B) (excluded : Nat) :
    ∀ (l accB accP : List (Fin W)) (exw : Option (Fin W)),
      wake_except_scan S excluded accB accP exw l =
        (accB ++ l.filter (isB S excluded), accP ++ l.filter (isP S),
         lastMatch (isEx S excluded) exw l) := by
  intro l
  induction l with
  | nil =>
    intro accB accP exw
    simp [wake_except_scan, lastMatch]
  | cons w rest ih =>
    intro accB accP exw
    by_cases h1 : S.tids w ≠ 0
    · by_cases h2 : S.tids w ≠ excluded
      · have hb : isB S excluded w = true := by simp [isB, h1, h2]
        have hp : isP S w = false := by simp [isP, h1]
        have he : isEx S excluded w = false := by simp [isEx, h2]
        simp [wake_except_scan, h1, h2, ih, hb, hp, he, lastMatch, List.filter_cons]
      · have hb : isB S excluded w = false := by simp [isB, h2]
        have hp : isP S w = false := by simp [isP, h1]
        have he : isEx S excluded w = true := by
          simp only [not_not] at h2
          have h1e : ¬excluded = 0 := by
            rw [← h2]
            exact h1
          simp [isEx, h2, h1e]
        simp [wake_except_scan, h1, h2, ih, hb, hp, he, lastMatch, List.filter_cons]
    · simp only [not_not] at h1
      have hb : isB S excluded w = false := by simp [isB, h1]
      have hp : isP S w = true := by simp [isP, h1]
      have he : isEx S excluded w = false := by simp [isEx, h1]
      simp [wake_except_scan, h1, ih, hb, hp, he, lastMatch, List.filter_cons]

/-- When nothing in the list matches, the `excluded_waiter` accumulator
survives unchanged. -/
theorem lastMatch_of_no_match {α : Type} (p : α → Bool) :
    ∀ (l : List α) (exw : Option α), (∀ a ∈ l, p a = false) →
      lastMatch p exw l = exw := by
  intro l
  induction l with
  | nil => intro exw _; rfl
  | cons a rest ih =>
    intro exw h
    have ha := h a (List.mem_cons_self a rest)
    simp only [lastMatch, ha]
    simp only [Bool.false_eq_true, if_false]
    exact ih exw (fun x hx => h x (List.mem_cons_of_mem a hx))

/-- Once some element has matched, the accumulator never returns to
`none`. -/
theorem lastMatch_isSome {α : Type} (p : α → Bool) :
    ∀ (l : List α) (e : α), ∃ e2, lastMatch p (some e) l = some e2 := by
  intro l
  induction l with
  | nil => intro e; exact ⟨e, rfl⟩
  | cons a rest ih =>
    intro e
    by_cases hp : p a = true
    · simp only [lastMatch, hp, if_true]
      exact ih a
    · have hp2 : p a = false := by simpa using hp
      simp only [lastMatch, hp2, Bool.false_eq_true, if_false]
      exact ih e

/-- If the scan found no excluded waiter, no element matched. -/
theorem lastMatch_none_spec {α : Type} (p : α → Bool) :
    ∀ (l : List α), lastMatch p none l = none → ∀ a ∈ l, p a = false := by
  intro l
  induction l with
  | nil =>
    intro _ a ha
    cases ha
  | cons a rest ih =>
    intro h x hx
    by_cases hp : p a = true
    · exfalso
      simp only [lastMatch, hp, if_true] at h
      rcases lastMatch_isSome p rest a with ⟨e2, he2⟩
      rw [he2] at h
      cases h
    · have hp2 : p a = false := by simpa using hp
      simp only [lastMatch, hp2, Bool.false_eq_true, if_false] at h
      rcases List.mem_cons.mp hx with rfl | hx2
      · exact hp2
      · exact ih h x hx2

/-- With at most one match in the list, the scan's `excluded_waiter` is
that unique match. -/
theorem lastMatch_count_le_one {α : Type} (p : α → Bool) :
    ∀ (l : List α) (e : α), l.countP p ≤ 1 → lastMatch p none l = some e →
      e ∈ l ∧ p e = true ∧ ∀ a ∈ l, p a = true → a = e := by
  intro l
  induction l with
  | nil =>
    intro e _ h
    cases h
  | cons a rest ih =>
    intro e hcount h
    by_cases hp : p a = true
    · have hc0 : rest.countP p = 0 := by
        rw [List.countP_cons_of_pos _ _ hp] at hcount
        omega
      have hzero : ∀ x ∈ rest, p x = false := by
        intro x hx
        have hnx := List.countP_eq_zero.mp hc0 x hx
        simpa using hnx
      simp only [lastMatch, hp, if_true] at h
      rw [lastMatch_of_no_match p rest (some a) hzero] at h
      injection h with h
      subst h
      refine ⟨List.mem_cons_self a rest, hp, ?_⟩
      intro x hx hpx
      rcases List.mem_cons.mp hx with rfl | hx2
      · rfl
      · rw [hzero x hx2] at hpx
        cases hpx
    · have hp2 : p a = false := by simpa using hp
      have hcount2 : rest.countP p ≤ 1 := by
        rw [List.countP_cons_of_neg] at hcount
        · exact hcount
        · simp [hp2]
      simp only [lastMatch, hp2, Bool.false_eq_true, if_false] at h
      rcases ih e hcount2 h with ⟨hmem, hpe, huniq⟩
      refine ⟨List.mem_cons_of_mem a hmem, hpe, ?_⟩
      intro x hx hpx
      rcases List.mem_cons.mp hx with rfl | hx2
      · rw [hp2] at hpx
        cases hpx
      · exact huniq x hx2 hpx

/-- A waiter is excluded, a woken u-task, or a woken k-thread — and
exactly the non-excluded ones are woken. -/
theorem isEx_false_iff (S : BtxState W B) (excluded : Nat) (w : Fin W) :
    isEx S excluded w = false ↔ (isB S excluded w = true ∨ isP S w = true) := by
  by_cases h1 : S.tids w = 0
  · simp [isEx, isB, isP, h1]
  · by_cases h2 : S.tids w = excluded
    · simp [isEx, isB, isP, h1, h2]
    · simp [isEx, isB, isP, h1, h2]

/-- Under the invariant, a waiter with a null container is in no list. -/
theorem inv_not_mem_of_none {W B : Nat} {S : BtxState W B} (hinv : Inv S)
    {w : Fin W} (hc : S.container w = none) : ∀ b : Fin B, w ∉ S.lists b := by
  intro b hmem
  have h := (hinv.1 w b).mp hmem
  rw [hc] at h
  cases h

/-- Under the invariant, a waiter whose container tags `b` is in no other
butex's list. -/
theorem inv_not_mem_of_other {W B : Nat} {S : BtxState W B} (hinv : Inv S)
    {w : Fin W} {b : Fin B} (hc : S.container w = some b) :
    ∀ b2 : Fin B, b2 ≠ b → w ∉ S.lists b2 := by
  intro b2 hne hmem
  have h := (hinv.1 w b2).mp hmem
  rw [hc] at h
  injection h with h
  exact hne h.symm

/-- Invariant preservation for the enqueue/cancel branch of
`wait_for_butex`; the waiter enters with a null container (butex.cpp line
636). -/
theorem inv_wait_for_butex {W B : Nat} (S : BtxState W B) (hinv : Inv S)
    (b : Fin B) (w : Fin W) (expected : Int) (stop interruptible : Bool)
    (hc : S.container w = none) :
    Inv (wait_for_butex S b w expected stop interruptible).1 := by
  have hnot := inv_not_mem_of_none hinv hc
  unfold wait_for_butex
  by_cases hcond : S.values b = expected ∧
      S.waiter_state w ≠ WaiterState.WAITER_STATE_TIMEDOUT ∧
      (stop = false ∨ interruptible = false)
  · rw [if_pos hcond]
    constructor
    · intro w2 b2
      show w2 ∈ upd S.lists b (S.lists b ++ [w]) b2 ↔
        upd S.container w (some b) w2 = some b2
      by_cases hb2 : b2 = b
      · subst hb2
        rw [upd_same]
        by_cases hw2 : w2 = w
        · subst hw2
          rw [upd_same]
          simp
        · rw [upd_ne _ _ _ _ hw2]
          simp only [List.mem_append, List.mem_singleton, hw2, or_false]
          exact hinv.1 w2 b2
      · rw [upd_ne _ _ _ _ hb2]
        by_cases hw2 : w2 = w
        · subst hw2
          rw [upd_same]
          constructor
          · intro hmem
            exact absurd hmem (hnot b2)
          · intro hsome
            injection hsome with hsome
            exact absurd hsome.symm hb2
        · rw [upd_ne _ _ _ _ hw2]
          exact hinv.1 w2 b2
    · intro b2
      show (upd S.lists b (S.lists b ++ [w]) b2).Nodup
      by_cases hb2 : b2 = b
      · subst hb2
        rw [upd_same, List.nodup_append]
        refine ⟨hinv.2 b2, List.nodup_singleton w, ?_⟩
        intro x hx hx2
        rw [List.mem_singleton] at hx2
        subst hx2
        exact hnot b2 hx
      · rw [upd_ne _ _ _ _ hb2]
        exact hinv.2 b2
  · rw [if_neg hcond]
    exact hinv

/-- Invariant preservation for `butex_wake`. -/
theorem inv_butex_wake {W B : Nat} (S : BtxState W B) (hinv : Inv S) (b : Fin B) :
    Inv (butex_wake S b).2.1 := by
  rcases hl : S.lists b with _ | ⟨front, rest⟩
  · have hw : butex_wake S b = (0, S, none) := by
      unfold butex_wake
      rw [hl]
    rw [hw]
    exact hinv
  · have hw : butex_wake S b =
        (1, { S with lists := upd S.lists b rest,
                     container := upd S.container front none },
         some (if S.tids front = 0 then .futexSignal front
               else .schedHandoff front)) := by
      unfold butex_wake
      rw [hl]
    rw [hw]
    have hfm : front ∈ S.lists b := by
      rw [hl]
      exact List.mem_cons_self front rest
    have hcf : S.container front = some b := (hinv.1 front b).mp hfm
    have hnd : (front :: rest).Nodup := hl ▸ hinv.2 b
    have hfr : front ∉ rest := (List.nodup_cons.mp hnd).1
    have hrnd : rest.Nodup := (List.nodup_cons.mp hnd).2
    constructor
    · intro w2 b2
      show w2 ∈ upd S.lists b rest b2 ↔ upd S.container front none w2 = some b2
      by_cases hb2 : b2 = b
      · subst hb2
        rw [upd_same]
        by_cases hw2 : w2 = front
        · subst hw2
          rw [upd_same]
          simp [hfr]
        · rw [upd_ne _ _ _ _ hw2]
          constructor
          · intro hmem
            refine (hinv.1 w2 b2).mp ?_
            rw [hl]
            exact List.mem_cons_of_mem front hmem
          · intro hcw
            have hm2 := (hinv.1 w2 b2).mpr hcw
            rw [hl] at hm2
            rcases List.mem_cons.mp hm2 with h | h
            · exact absurd h hw2
            · exact h
      · rw [upd_ne _ _ _ _ hb2]
        by_cases hw2 : w2 = front
        · subst hw2
          rw [upd_same]
          constructor
          · intro hmem
            exact absurd hmem (inv_not_mem_of_other hinv hcf b2 hb2)
          · intro hnone
            cases hnone
        · rw [upd_ne _ _ _ _ hw2]
          exact hinv.1 w2 b2
    · intro b2
      show (upd S.lists b rest b2).Nodup
      by_cases hb2 : b2 = b
      · subst hb2
        rw [upd_same]
        exact hrnd
      · rw [upd_ne _ _ _ _ hb2]
        exact hinv.2 b2

/-- Invariant preservation for `butex_wake_all`. -/
theorem inv_butex_wake_all {W B : Nat} (S : BtxState W B) (hinv : Inv S)
    (b : Fin B) : Inv (butex_wake_all S b).2 := by
  constructor
  · intro w2 b2
    show w2 ∈ upd S.lists b [] b2 ↔
      (if w2 ∈ S.lists b then none else S.container w2) = some b2
    by_cases hw2 : w2 ∈ S.lists b
    · rw [if_pos hw2]
      have hcw : S.container w2 = some b := (hinv.1 w2 b).mp hw2
      by_cases hb2 : b2 = b
      · subst hb2
        rw [upd_same]
        simp
      · rw [upd_ne _ _ _ _ hb2]
        constructor
        · intro hmem
          exact absurd hmem (inv_not_mem_of_other hinv hcw b2 hb2)
        · intro hnone
          cases hnone
    · rw [if_neg hw2]
      by_cases hb2 : b2 = b
      · subst hb2
        rw [upd_same]
        constructor
        · intro hmem
          cases hmem
        · intro hcw
          exact absurd ((hinv.1 w2 b2).mpr hcw) hw2
      · rw [upd_ne _ _ _ _ hb2]
        exact hinv.1 w2 b2
  · intro b2
    show (upd S.lists b [] b2).Nodup
    by_cases hb2 : b2 = b
    · subst hb2
      rw [upd_same]
      exact List.nodup_nil
    · rw [upd_ne _ _ _ _ hb2]
      exact hinv.2 b2

/-- Invariant preservation for `erase_from_butex`. -/
theorem inv_erase_from_butex {W B : Nat} (S : BtxState W B) (hinv : Inv S)
    (w : Fin W) (wakeup : Bool) (errno : Int) :
    Inv (erase_from_butex S w wakeup errno).2.1 := by
  rcases hc : S.container w with _ | b
  · have hw : erase_from_butex S w wakeup errno = (false, S, errno, none) := by
      unfold erase_from_butex
      rw [hc]
    rw [hw]
    exact hinv
  · have hw : erase_from_butex S w wakeup errno =
        (true,
         { S with
            lists := upd S.lists b ((S.lists b).erase w),
            container := upd S.container w none,
            waiter_state :=
              if S.tids w ≠ 0 then upd S.waiter_state w .WAITER_STATE_TIMEDOUT
              else S.waiter_state },
         errno,
         if wakeup then
           some (if S.tids w ≠ 0 then .schedHandoff w else .futexSignal w)
         else none) := by
      unfold erase_from_butex
      rw [hc]
    rw [hw]
    constructor
    · intro w2 b2
      show w2 ∈ upd S.lists b ((S.lists b).erase w) b2 ↔
        upd S.container w none w2 = some b2
      by_cases hw2 : w2 = w
      · subst hw2
        rw [upd_same]
        by_cases hb2 : b2 = b
        · subst hb2
          rw [upd_same]
          constructor
          · intro hmem
            exact absurd hmem ((hinv.2 b2).not_mem_erase)
          · intro hnone
            cases hnone
        · rw [upd_ne _ _ _ _ hb2]
          constructor
          · intro hmem
            exact absurd hmem (inv_not_mem_of_other hinv hc b2 hb2)
          · intro hnone
            cases hnone
      · rw [upd_ne _ _ _ _ hw2]
        by_cases hb2 : b2 = b
        · subst hb2
          rw [upd_same, (hinv.2 b2).mem_erase_iff]
          simp only [hw2, ne_eq, not_false_iff, true_and]
          exact hinv.1 w2 b2
        · rw [upd_ne _ _ _ _ hb2]
          exact hinv.1 w2 b2
    · intro b2
      show (upd S.lists b ((S.lists b).erase w) b2).Nodup
      by_cases hb2 : b2 = b
      · subst hb2
        rw [upd_same]
        exact (hinv.2 b2).erase w
      · rw [upd_ne _ _ _ _ hb2]
        exact hinv.2 b2

/-- Invariant preservation for `butex_requeue` on distinct butexes. -/
theorem inv_butex_requeue {W B : Nat} (S : BtxState W B) (hinv : Inv S)
    (src dst : Fin B) (hne : src ≠ dst) :
    Inv (butex_requeue S src dst).2.1 := by
  rcases hl : S.lists src with _ | ⟨front, rest⟩
  · have hw : butex_requeue S src dst = (0, S, none) := by
      unfold butex_requeue
      rw [hl]
    rw [hw]
    exact hinv
  · have hw : butex_requeue S src dst =
        (1,
         { S with
            lists := upd (upd S.lists src []) dst (S.lists dst ++ rest),
            container := fun w =>
              if w ∈ rest then some dst
              else if w = front then none
              else S.container w },
         some (if S.tids front = 0 then .futexSignal front
               else .schedHandoff front)) := by
      unfold butex_requeue
      rw [hl]
    rw [hw]
    have hfm : front ∈ S.lists src := by
      rw [hl]
      exact List.mem_cons_self front rest
    have hcf : S.container front = some src := (hinv.1 front src).mp hfm
    have hnd : (front :: rest).Nodup := hl ▸ hinv.2 src
    have hfr : front ∉ rest := (List.nodup_cons.mp hnd).1
    have hrnd : rest.Nodup := (List.nodup_cons.mp hnd).2
    have hrc : ∀ x ∈ rest, S.container x = some src := by
      intro x hx
      refine (hinv.1 x src).mp ?_
      rw [hl]
      exact List.mem_cons_of_mem front hx
    have hlsts : ∀ b2 : Fin B,
        upd (upd S.lists src []) dst (S.lists dst ++ rest) b2
          = if b2 = dst then S.lists dst ++ rest
            else if b2 = src then []
            else S.lists b2 := by
      intro b2
      by_cases h2 : b2 = dst
      · rw [if_pos h2, h2, upd_same]
      · rw [if_neg h2, upd_ne _ _ _ _ h2]
        by_cases h3 : b2 = src
        · rw [if_pos h3, h3, upd_same]
        · rw [if_neg h3, upd_ne _ _ _ _ h3]
    constructor
    · intro w2 b2
      show w2 ∈ upd (upd S.lists src []) dst (S.lists dst ++ rest) b2 ↔
        (if w2 ∈ rest then some dst
         else if w2 = front then none
         else S.container w2) = some b2
      rw [hlsts b2]
      by_cases hw2r : w2 ∈ rest
      · rw [if_pos hw2r]
        by_cases h2 : b2 = dst
        · rw [if_pos h2, h2]
          simp [hw2r]
        · rw [if_neg h2]
          by_cases h3 : b2 = src
          · rw [if_pos h3]
            constructor
            · intro hmm
              exact absurd hmm (List.not_mem_nil w2)
            · intro hsome
              injection hsome with h4
              rw [h3] at h4
              exact absurd h4.symm hne
          · rw [if_neg h3]
            constructor
            · intro hmm
              exact absurd hmm (inv_not_mem_of_other hinv (hrc w2 hw2r) b2 h3)
            · intro hsome
              injection hsome with h4
              exact absurd h4.symm h2
      · rw [if_neg hw2r]
        by_cases hw2f : w2 = front
        · subst hw2f
          rw [if_pos rfl]
          by_cases h2 : b2 = dst
          · rw [if_pos h2]
            constructor
            · intro hmm
              rcases List.mem_append.mp hmm with h | h
              · exact absurd h (inv_not_mem_of_other hinv hcf dst (Ne.symm hne))
              · exact absurd h hfr
            · intro hnone
              cases hnone
          · rw [if_neg h2]
            by_cases h3 : b2 = src
            · rw [if_pos h3]
              constructor
              · intro hmm
                exact absurd hmm (List.not_mem_nil w2)
              · intro hnone
                cases hnone
            · rw [if_neg h3]
              constructor
              · intro hmm
                exact absurd hmm (inv_not_mem_of_other hinv hcf b2 h3)
              · intro hnone
                cases hnone
        · rw [if_neg hw2f]
          by_cases h2 : b2 = dst
          · rw [if_pos h2, h2]
            constructor
            · intro hmm
              rcases List.mem_append.mp hmm with h | h
              · exact (hinv.1 w2 dst).mp h
              · exact absurd h hw2r
            · intro hcw
              exact List.mem_append.mpr (Or.inl ((hinv.1 w2 dst).mpr hcw))
          · rw [if_neg h2]
            by_cases h3 : b2 = src
            · rw [if_pos h3, h3]
              constructor
              · intro hmm
                exact absurd hmm (List.not_mem_nil w2)
              · intro hcw
                have hm2 := (hinv.1 w2 src).mpr hcw
                rw [hl] at hm2
                rcases List.mem_cons.mp hm2 with h | h
                · exact absurd h hw2f
                · exact absurd h hw2r
            · rw [if_neg h3]
              exact hinv.1 w2 b2
    · intro b2
      show (upd (upd S.lists src []) dst (S.lists dst ++ rest) b2).Nodup
      rw [hlsts b2]
      by_cases h2 : b2 = dst
      · rw [if_pos h2, List.nodup_append]
        refine ⟨hinv.2 dst, hrnd, ?_⟩
        intro x hx hx2
        have e1 := (hinv.1 x dst).mp hx
        have e2 := hrc x hx2
        rw [e1] at e2
        injection e2 with e2
        exact hne e2.symm
      · rw [if_neg h2]
        by_cases h3 : b2 = src
        · rw [if_pos h3]
          exact List.nodup_nil
        · rw [if_neg h3]
          exact hinv.2 b2

/-- Invariant preservation for `butex_wake_except`, plus the excluded
waiter's re-insertion: when at most one queued waiter matches the
excluded tid (a bthread waits in at most one place at a time), the
invariant survives and the excluded waiter, if found, is back in the
queue with its container still tagging the butex. -/
theorem inv_butex_wake_except {W B : Nat} (S : BtxState W B) (hinv : Inv S)
    (b : Fin B) (excluded : Nat)
    (hcount : (S.lists b).countP (isEx S excluded) ≤ 1) :
    Inv (butex_wake_except S b excluded).2 ∧
    (∀ e, lastMatch (isEx S excluded) none (S.lists b) = some e →
      e ∈ (butex_wake_except S b excluded).2.lists b ∧
      (butex_wake_except S b excluded).2.container e = some b) := by
  have hres : wake_except_scan S excluded [] [] none (S.lists b) =
      ((S.lists b).filter (isB S excluded), (S.lists b).filter (isP S),
       lastMatch (isEx S excluded) none (S.lists b)) := by
    rw [wake_except_scan_spec S excluded (S.lists b) [] [] none]
    simp
  have hwoken : ∀ w2 : Fin W,
      w2 ∈ (S.lists b).filter (isB S excluded) ++ (S.lists b).filter (isP S) ↔
      (w2 ∈ S.lists b ∧ isEx S excluded w2 = false) := by
    intro w2
    rw [List.mem_append, List.mem_filter, List.mem_filter]
    constructor
    · rintro (⟨hm, hB⟩ | ⟨hm, hP⟩)
      · exact ⟨hm, (isEx_false_iff S excluded w2).mpr (Or.inl hB)⟩
      · exact ⟨hm, (isEx_false_iff S excluded w2).mpr (Or.inr hP)⟩
    · rintro ⟨hm, hEx⟩
      rcases (isEx_false_iff S excluded w2).mp hEx with h | h
      · exact Or.inl ⟨hm, h⟩
      · exact Or.inr ⟨hm, h⟩
  rcases hex : lastMatch (isEx S excluded) none (S.lists b) with _ | e
  · -- no excluded waiter found: behaves like wake_all
    have hstate : butex_wake_except S b excluded =
        ((((S.lists b).filter (isP S)).length + ((S.lists b).filter (isB S excluded)).length : Int),
         { S with
            lists := upd S.lists b [],
            container := fun w =>
              if w ∈ (S.lists b).filter (isB S excluded) ++ (S.lists b).filter (isP S)
              then none
              else S.container w }) := by
      unfold butex_wake_except
      rw [hres, hex]
    have hallfalse := lastMatch_none_spec (isEx S excluded) (S.lists b) hex
    rw [hstate]
    refine ⟨⟨?_, ?_⟩, ?_⟩
    · intro w2 b2
      show w2 ∈ upd S.lists b [] b2 ↔
        (if w2 ∈ (S.lists b).filter (isB S excluded) ++ (S.lists b).filter (isP S)
         then none
         else S.container w2) = some b2
      by_cases hw2 : w2 ∈ (S.lists b).filter (isB S excluded) ++ (S.lists b).filter (isP S)
      · rw [if_pos hw2]
        have hcw : S.container w2 = some b := (hinv.1 w2 b).mp ((hwoken w2).mp hw2).1
        by_cases hb2 : b2 = b
        · rw [hb2, upd_same]
          constructor
          · intro hmm
            exact absurd hmm (List.not_mem_nil w2)
          · intro hnone
            cases hnone
        · rw [upd_ne _ _ _ _ hb2]
          constructor
          · intro hmm
            exact absurd hmm (inv_not_mem_of_other hinv hcw b2 hb2)
          · intro hnone
            cases hnone
      · rw [if_neg hw2]
        have hw2nm : w2 ∉ S.lists b := by
          intro hm
          exact hw2 ((hwoken w2).mpr ⟨hm, hallfalse w2 hm⟩)
        by_cases hb2 : b2 = b
        · rw [hb2, upd_same]
          constructor
          · intro hmm
            exact absurd hmm (List.not_mem_nil w2)
          · intro hcw
            exact absurd ((hinv.1 w2 b).mpr hcw) hw2nm
        · rw [upd_ne _ _ _ _ hb2]
          exact hinv.1 w2 b2
    · intro b2
      show (upd S.lists b [] b2).Nodup
      by_cases hb2 : b2 = b
      · rw [hb2, upd_same]
        exact List.nodup_nil
      · rw [upd_ne _ _ _ _ hb2]
        exact hinv.2 b2
    · intro e2 hex2
      cases hex2
  · -- a unique excluded waiter e was found and re-appended
    obtain ⟨hemem, hpe, huniq⟩ :=
      lastMatch_count_le_one (isEx S excluded) (S.lists b) e hcount hex
    have hce : S.container e = some b := (hinv.1 e b).mp hemem
    have henw : e ∉ (S.lists b).filter (isB S excluded) ++ (S.lists b).filter (isP S) := by
      intro hmm
      have h := ((hwoken e).mp hmm).2
      rw [hpe] at h
      cases h
    have hstate : butex_wake_except S b excluded =
        ((((S.lists b).filter (isP S)).length + ((S.lists b).filter (isB S excluded)).length : Int),
         { S with
            lists := upd S.lists b [e],
            container := fun w =>
              if w ∈ (S.lists b).filter (isB S excluded) ++ (S.lists b).filter (isP S)
              then none
              else S.container w }) := by
      unfold butex_wake_except
      rw [hres, hex]
    rw [hstate]
    refine ⟨⟨?_, ?_⟩, ?_⟩
    · intro w2 b2
      show w2 ∈ upd S.lists b [e] b2 ↔
        (if w2 ∈ (S.lists b).filter (isB S excluded) ++ (S.lists b).filter (isP S)
         then none
         else S.container w2) = some b2
      by_cases hw2 : w2 ∈ (S.lists b).filter (isB S excluded) ++ (S.lists b).filter (isP S)
      · rw [if_pos hw2]
        obtain ⟨hw2m, hw2ex⟩ := (hwoken w2).mp hw2
        have hcw : S.container w2 = some b := (hinv.1 w2 b).mp hw2m
        by_cases hb2 : b2 = b
        · rw [hb2, upd_same]
          constructor
          · intro hmm
            rw [List.mem_singleton] at hmm
            rw [hmm, hpe] at hw2ex
            cases hw2ex
          · intro hnone
            cases hnone
        · rw [upd_ne _ _ _ _ hb2]
          constructor
          · intro hmm
            exact absurd hmm (inv_not_mem_of_other hinv hcw b2 hb2)
          · intro hnone
            cases hnone
      · rw [if_neg hw2]
        by_cases hb2 : b2 = b
        · rw [hb2, upd_same]
          constructor
          · intro hmm
            rw [List.mem_singleton] at hmm
            rw [hmm]
            exact hce
          · intro hcw
            have hw2m : w2 ∈ S.lists b := (hinv.1 w2 b).mpr hcw
            have hw2ex : isEx S excluded w2 = true := by
              by_contra hfalse
              have hfl : isEx S excluded w2 = false := by simpa using hfalse
              exact hw2 ((hwoken w2).mpr ⟨hw2m, hfl⟩)
            rw [List.mem_singleton]
            exact huniq w2 hw2m hw2ex
        · rw [upd_ne _ _ _ _ hb2]
          exact hinv.1 w2 b2
    · intro b2
      show (upd S.lists b [e] b2).Nodup
      by_cases hb2 : b2 = b
      · rw [hb2, upd_same]
        exact List.nodup_singleton e
      · rw [upd_ne _ _ _ _ hb2]
        exact hinv.2 b2
    · intro e2 hex2
      injection hex2 with hex2
      subst hex2
      constructor
      · show e ∈ upd S.lists b [e] b
        rw [upd_same]
        exact List.mem_singleton_self e
      · show (if e ∈ (S.lists b).filter (isB S excluded) ++ (S.lists b).filter (isP S)
              then none
              else S.container e) = some b
        rw [if_neg henw]
        exact hce

/-- C3: every waiter-queue operation preserves the container invariant —
a waiter is in butex b's list iff its `container` tags b, and its
`container` is null iff it is in no list; `butex_wake_except` moreover
puts the excluded waiter back into the list with its `container` still
tagging that butex.  Side conditions reflecting the runtime: the
enqueueing waiter enters with a null container (butex.cpp line 636), at
most one queued waiter carries the excluded tid (a bthread waits in at
most one place at a time), and requeue acts on two distinct butexes
(`base::double_lock` self-deadlocks otherwise). -/
theorem butex_container_invariant (W B : Nat) (S : BtxState W B) (hinv : Inv S) :
    (∀ (b : Fin B) (w : Fin W) (expected : Int) (stop interruptible : Bool),
      S.container w = none →
      Inv (wait_for_butex S b w expected stop interruptible).1) ∧
    (∀ b : Fin B, Inv (butex_wake S b).2.1) ∧
    (∀ b : Fin B, Inv (butex_wake_all S b).2) ∧
    (∀ (b : Fin B) (excluded : Nat),
      (S.lists b).countP (isEx S excluded) ≤ 1 →
      Inv (butex_wake_except S b excluded).2 ∧
      (∀ e, lastMatch (isEx S excluded) none (S.lists b) = some e →
        e ∈ (butex_wake_except S b excluded).2.lists b ∧
        (butex_wake_except S b excluded).2.container e = some b)) ∧
    (∀ src dst : Fin B, src ≠ dst → Inv (butex_requeue S src dst).2.1) ∧
    (∀ (w : Fin W) (wakeup : Bool) (errno : Int),
      Inv (erase_from_butex S w wakeup errno).2.1) :=
  ⟨fun b w expected stop intr hc => inv_wait_for_butex S hinv b w expected stop intr hc,
   fun b => inv_butex_wake S hinv b,
   fun b => inv_butex_wake_all S hinv b,
   fun b excluded hcount => inv_butex_wake_except S hinv b excluded hcount,
   fun src dst hne => inv_butex_requeue S hinv src dst hne,
   fun w wakeup errno => inv_erase_from_butex S hinv w wakeup errno⟩

/-- Witness for C3's theorem at a concrete 3-waiter, 2-butex state:
the invariant survives an enqueue of the unqueued waiter 2, a wake, a
wake_all, a wake_except excluding tid 2 (waiter 1, which stays queued
with container intact), a requeue and an erase. -/
theorem butex_container_invariant_witness :
    Inv bwakeW ∧
    Inv (wait_for_butex bwakeW 1 2 0 false false).1 ∧
    Inv (butex_wake bwakeW 0).2.1 ∧
    Inv (butex_wake_all bwakeW 0).2 ∧
    Inv (butex_wake_except bwakeW 0 2).2 ∧
    ((1 : Fin 3) ∈ (butex_wake_except bwakeW 0 2).2.lists 0 ∧
      (butex_wake_except bwakeW 0 2).2.container 1 = some 0) ∧
    Inv (butex_requeue bwakeW 0 1).2.1 ∧
    Inv (erase_from_butex bwakeW 1 true 7).2.1 := by
  have h := butex_container_invariant 3 2 bwakeW (by decide)
  exact ⟨by decide,
         h.1 1 2 0 false false (by decide),
         h.2.1 0,
         h.2.2.1 0,
         (h.2.2.2.1 0 2 (by decide)).1,
         (h.2.2.2.1 0 2 (by decide)).2 1 (by decide),
         h.2.2.2.2.1 0 1 (by decide),
         h.2.2.2.2.2 1 true 7⟩

/-- The race invariant holds in the initial state. -/
theorem raceInv_init (vexp vnew : Int) : RaceInv vexp vnew (raceInit vexp) := by
  refine ⟨fun _ => rfl, fun h => absurd rfl h, ?_, ?_, ?_⟩
  · intro h
    exact nomatch h
  · intro h
    exact nomatch h
  · intro h
    exact nomatch h

/-- The race invariant is preserved by every interleaving step, provided
the stored value differs from the expected one. -/
theorem raceInv_step (vexp vnew : Int) (hne : vnew ≠ vexp)
    (S T : RaceState) (hstep : RaceStep vexp vnew S T)
    (hinv : RaceInv vexp vnew S) : RaceInv vexp vnew T := by
  obtain ⟨h1, h2, h3, h4, h5⟩ := hinv
  cases hstep with
  | waiter_check_mismatch hpc hval =>
    refine ⟨h1, h2, ?_, h4, ?_⟩
    · intro h
      exact nomatch h
    · intro _
      exact Or.inl rfl
  | waiter_check_match hpc hval =>
    refine ⟨h1, h2, ?_, h4, ?_⟩
    · intro h
      exact nomatch h
    · intro h
      exact nomatch h
  | waiter_enqueue hpc hval =>
    refine ⟨h1, h2, ?_, ?_, ?_⟩
    · intro _
      exact Or.inl rfl
    · intro h
      exfalso
      have h2' : S.wakerPC = WakerPC.finished := h
      have hns : S.wakerPC ≠ WakerPC.store := by
        rw [h2']
        decide
      have hv := h2 hns
      rw [hval] at hv
      exact hne hv.symm
    · intro h
      exact nomatch h
  | waiter_cancel hpc hval =>
    refine ⟨h1, h2, ?_, h4, ?_⟩
    · intro h
      exact nomatch h
    · intro _
      exact Or.inl rfl
  | waiter_resume hpc hwk =>
    refine ⟨h1, h2, ?_, h4, ?_⟩
    · intro h
      exact nomatch h
    · intro _
      exact Or.inr rfl
  | waker_store hpc =>
    refine ⟨?_, ?_, h3, ?_, h5⟩
    · intro h
      exact nomatch h
    · intro _
      exact rfl
    · intro h
      exact nomatch h
  | waker_wake_found hpc hq =>
    refine ⟨?_, ?_, ?_, ?_, h5⟩
    · intro h
      exact nomatch h
    · intro _
      refine h2 ?_
      rw [hpc]
      decide
    · intro _
      exact Or.inr rfl
    · intro _
      exact rfl
  | waker_wake_empty hpc hq =>
    refine ⟨?_, ?_, h3, ?_, h5⟩
    · intro h
      exact nomatch h
    · intro _
      refine h2 ?_
      rw [hpc]
      decide
    · intro _
      exact hq

/-- Every reachable race state satisfies the race invariant. -/
theorem raceInv_reachable (vexp vnew : Int) (hne : vnew ≠ vexp) (S : RaceState)
    (hr : RaceReachable vexp vnew S) : RaceInv vexp vnew S := by
  unfold RaceReachable at hr
  induction hr with
  | refl => exact raceInv_init vexp vnew
  | tail hsteps hstep ih => exact raceInv_step vexp vnew hne _ _ hstep ih

/-- C1: no lost wake-up.  For every interleaving of a waker that stores
`vnew ≠ vexp` and then wakes, with a waiter that checks the value and
then waits for `vexp`: in every reachable state in which the waker has
finished while the waiter is still parked, the waiter has already been
dequeued and marked woken by that wake (so its resume step is enabled and
it does not sleep forever), and a waiter that has returned did so either
with EWOULDBLOCK (mismatch seen at the fast check or under the lock) or
as woken by the wake. -/
theorem butex_no_lost_wakeup (vexp vnew : Int) (hne : vnew ≠ vexp)
    (S : RaceState) (hr : RaceReachable vexp vnew S) :
    (S.wakerPC = .finished → S.waiterPC = .parked → S.woken = true) ∧
    (S.wakerPC = .finished → S.waiterPC = .parked →
      RaceStep vexp vnew S { S with waiterPC := .done, outcome := some .woken }) ∧
    (S.waiterPC = .done →
      S.outcome = some .wouldblock ∨ S.outcome = some .woken) := by
  obtain ⟨h1, h2, h3, h4, h5⟩ := raceInv_reachable vexp vnew hne S hr
  have hwoken : S.wakerPC = .finished → S.waiterPC = .parked → S.woken = true := by
    intro hf hp
    rcases h3 hp with hq | hw
    · rw [h4 hf] at hq
      cases hq
    · exact hw
  refine ⟨hwoken, ?_, h5⟩
  intro hf hp
  exact RaceStep.waiter_resume S hp (hwoken hf hp)

/-- Witness for C1's theorem: with vexp = 0, vnew = 1, the interleaving
check; enqueue; store; wake reaches the state in which the waker has
finished and the waiter is parked — and the waiter is marked woken. -/
theorem butex_no_lost_wakeup_witness :
    ({ value := 1, queued := false, woken := true, waiterPC := .parked,
       wakerPC := .finished, outcome := none } : RaceState).woken = true := by
  have s1 : RaceStep 0 1 (raceInit 0)
      { value := 0, queued := false, woken := false, waiterPC := .recheckEnqueue,
        wakerPC := .store, outcome := none } :=
    RaceStep.waiter_check_match (raceInit 0) rfl rfl
  have s2 : RaceStep 0 1
      { value := 0, queued := false, woken := false, waiterPC := .recheckEnqueue,
        wakerPC := .store, outcome := none }
      { value := 0, queued := true, woken := false, waiterPC := .parked,
        wakerPC := .store, outcome := none } :=
    RaceStep.waiter_enqueue _ rfl rfl
  have s3 : RaceStep 0 1
      { value := 0, queued := true, woken := false, waiterPC := .parked,
        wakerPC := .store, outcome := none }
      { value := 1, queued := true, woken := false, waiterPC := .parked,
        wakerPC := .wake, outcome := none } :=
    RaceStep.waker_store _ rfl
  have s4 : RaceStep 0 1
      { value := 1, queued := true, woken := false, waiterPC := .parked,
        wakerPC := .wake, outcome := none }
      { value := 1, queued := false, woken := true, waiterPC := .parked,
        wakerPC := .finished, outcome := none } :=
    RaceStep.waker_wake_found _ rfl rfl
  refine (butex_no_lost_wakeup 0 1 (by decide) _ ?_).1 rfl rfl
  exact Relation.ReflTransGen.tail (Relation.ReflTransGen.tail
    (Relation.ReflTransGen.tail (Relation.ReflTransGen.tail
      Relation.ReflTransGen.refl s1) s2) s3) s4

/-- C10 counterexample: with the stop flag and interruptibility both set
but the deadline already expired, the k-thread path returns ETIMEDOUT
(butex.cpp lines 560-564), not ESTOP — the deadline translation precedes
the stop check. -/
theorem pthread_stop_counterexample :
    butex_wait_from_pthread 0 0 (some 0) 0 true true true = .timedout ∧
    PWResult.timedout ≠ PWResult.estop := by decide

end bthread
